import Mathlib

/-!
Verification of the Market-Tycoon-Farm price pipeline.

This file gives a shallow embedding, in Lean 4, of the cache-coalescing
fetch pipeline of the repository (src/src/Main.js,
src/src/FuzzApiPrice.V3.gs.js and the unnamed variants), and proves or
refutes the testable properties stated in the specification.

Modelling conventions:
* JavaScript values are embedded by the inductive `JVal`; objects are
  association lists, and numeric payloads are modelled as integers
  (`JNum.fin`), with `JNum.nonfin` standing for NaN / Infinity.  No claim
  in scope depends on non-integer arithmetic.
* The `Number(string)` coercion is modelled on the fragment the pipeline
  needs: an optional sign followed by decimal digits parses to a finite
  value, the empty string parses to 0, and everything else is NaN.
* Stateful Apps Script primitives (CacheService, LockService) are
  embedded as explicit state passing; lock-protected critical sections
  are modelled as atomic state transitions, which is exactly the
  serialization the script lock provides when it is acquired.
-/

namespace MarketFarm

/-- Result of a JavaScript numeric coercion: a finite number (modelled as
an integer) or a non-finite result (NaN / Infinity). -/
inductive JNum where
  | fin (v : Int)
  | nonfin
deriving DecidableEq, Repr

/-- Shallow embedding of the JavaScript values that flow through the
price pipeline.  Objects are association lists from field names to
values. -/
inductive JVal where
  | vnull
  | vundef
  | vnum (n : JNum)
  | vstr (s : String)
  | vbool (b : Bool)
  | vobj (fields : List (String × JVal))

/-- Property lookup `o[k]` on a JavaScript object: the first binding of
the key wins, and a missing key reads as `undefined`. -/
def objGet (fields : List (String × JVal)) (k : String) : JVal :=
  match fields.find? (fun p => p.1 == k) with
  | some p => p.2
  | none => JVal.vundef

/-- Model of the JavaScript `String.prototype.trim`: leading and
trailing whitespace characters are removed.  (Defined structurally over
the character list so that it evaluates by reduction.) -/
def jsTrim (s : String) : String :=
  String.mk (((s.data.dropWhile Char.isWhitespace).reverse.dropWhile
    Char.isWhitespace).reverse)

/-- Model of the JavaScript `String.prototype.toLowerCase` on the ASCII
range the pipeline uses.  (Defined structurally over the character list
so that it evaluates by reduction.) -/
def jsToLower (s : String) : String :=
  String.mk (s.data.map Char.toLower)

/-- Digit-string parser backing the model of `Number(string)`. -/
def digitsToNat (cs : List Char) : Option Nat :=
  if cs.isEmpty then none
  else if cs.all Char.isDigit then
    some (cs.foldl (fun a c => a * 10 + (c.toNat - 48)) 0)
  else none

/-- Model of the JavaScript `Number(string)` coercion on an already
trimmed string: the empty string gives 0, an optional sign followed by
decimal digits gives a finite value, anything else gives NaN. -/
def jsStringToNum (t : String) : JNum :=
  match t.toList with
  | [] => JNum.fin 0
  | '-' :: rest =>
      match digitsToNat rest with
      | some n => JNum.fin (-(n : Int))
      | none => JNum.nonfin
  | '+' :: rest =>
      match digitsToNat rest with
      | some n => JNum.fin (n : Int)
      | none => JNum.nonfin
  | cs =>
      match digitsToNat cs with
      | some n => JNum.fin (n : Int)
      | none => JNum.nonfin

/-- Embedding of `toNumOrNull` (src/src/Main.js lines 188-198): null and
undefined give null; a number passes through only when finite; a string
is trimmed, the empty string gives null (never 0), otherwise it is
coerced with `Number` and kept only when finite; every other type gives
null. -/
def toNumOrNull (x : JVal) : Option Int :=
  match x with
  | JVal.vnull => none
  | JVal.vundef => none
  | JVal.vnum (JNum.fin v) => some v
  | JVal.vnum JNum.nonfin => none
  | JVal.vstr x =>
      let s := jsTrim x
      if s = "" then none
      else
        match jsStringToNum s with
        | JNum.fin n => some n
        | JNum.nonfin => none
  | _ => none

/-- Model of the JavaScript `Number(x)` coercion on a general value, as
used by the read-path extractor.  Object coercion is approximated as NaN;
the pipeline never stores objects in a numeric field. -/
def jsToNumber (x : JVal) : JNum :=
  match x with
  | JVal.vnull => JNum.fin 0
  | JVal.vundef => JNum.nonfin
  | JVal.vnum n => n
  | JVal.vbool b => JNum.fin (if b then 1 else 0)
  | JVal.vstr s => jsStringToNum (jsTrim s)
  | JVal.vobj _ => JNum.nonfin

/-- The eight numeric fields of a price-aggregate side
(`_FUZZ_FIELDS`, src/src/Main.js lines 274-277). -/
def FUZZ_FIELDS : List String :=
  ["min", "max", "avg", "median", "volume",
   "weightedAverage", "orderCount", "fivePercent"]

/-- A sanitized side of a price aggregate: each of the eight numeric
fields is a number or null. -/
structure SideOut where
  min : Option Int
  max : Option Int
  avg : Option Int
  median : Option Int
  volume : Option Int
  weightedAverage : Option Int
  orderCount : Option Int
  fivePercent : Option Int
deriving DecidableEq, Repr

/-- Field access on a sanitized side by field name. -/
def SideOut.get (o : SideOut) : String → Option Int
  | "min" => o.min
  | "max" => o.max
  | "avg" => o.avg
  | "median" => o.median
  | "volume" => o.volume
  | "weightedAverage" => o.weightedAverage
  | "orderCount" => o.orderCount
  | "fivePercent" => o.fivePercent
  | _ => none

/-- The field-coercion loop of `normalizeSide` inside `sanitizeAgg_`
(src/src/Main.js lines 282-287): every field of `_FUZZ_FIELDS` is read
from the raw side object and passed through `toNumOrNull`. -/
def rawSide (fs : List (String × JVal)) : SideOut where
  min := toNumOrNull (objGet fs "min")
  max := toNumOrNull (objGet fs "max")
  avg := toNumOrNull (objGet fs "avg")
  median := toNumOrNull (objGet fs "median")
  volume := toNumOrNull (objGet fs "volume")
  weightedAverage := toNumOrNull (objGet fs "weightedAverage")
  orderCount := toNumOrNull (objGet fs "orderCount")
  fivePercent := toNumOrNull (objGet fs "fivePercent")

/-- The avg fallback of `normalizeSide` (src/src/Main.js line 288):
when `avg` coerced to null and `weightedAverage` did not, `avg` is
replaced by `weightedAverage`. -/
def substAvg (o : SideOut) : SideOut :=
  if o.avg = none ∧ o.weightedAverage ≠ none then
    { o with avg := o.weightedAverage }
  else o

/-- The usability check of `normalizeSide` (src/src/Main.js line 289):
the side is kept only when at least one field is non-null. -/
def sideHasValue (o : SideOut) : Bool :=
  o.min.isSome || o.max.isSome || o.avg.isSome || o.median.isSome ||
  o.volume.isSome || o.weightedAverage.isSome || o.orderCount.isSome ||
  o.fivePercent.isSome

/-- Embedding of `normalizeSide` (src/src/Main.js lines 282-291): a
non-object side gives null; otherwise the eight fields are coerced, the
avg fallback is applied, and the side degrades to null when every field
is null. -/
def normalizeSide (side : JVal) : Option SideOut :=
  match side with
  | JVal.vobj fs =>
      let out := substAvg (rawSide fs)
      if sideHasValue out then some out else none
  | _ => none

/-- A sanitized price aggregate: the two sides, each possibly degraded
to null (serialized as an empty object). -/
structure Agg where
  buy : Option SideOut
  sell : Option SideOut
deriving DecidableEq, Repr

/-- Embedding of `sanitizeAgg_` (src/src/Main.js lines 279-297): a
non-object row gives null; both sides are normalized; when both degrade
to null the record degrades to null (confirmed absent). -/
def sanitizeAgg_ (row : JVal) : Option Agg :=
  match row with
  | JVal.vobj fs =>
      let buy := normalizeSide (objGet fs "buy")
      let sell := normalizeSide (objGet fs "sell")
      if buy = none ∧ sell = none then none
      else some { buy := buy, sell := sell }
  | _ => none

/-- Serialization of an option-valued field back to a JavaScript value
(null for none), as produced by `JSON.stringify` of a sanitized side. -/
def optIntToJVal : Option Int → JVal
  | none => JVal.vnull
  | some v => JVal.vnum (JNum.fin v)

/-- A sanitized side as the JavaScript object `sanitizeAgg_` builds. -/
def SideOut.toJVal (o : SideOut) : JVal :=
  JVal.vobj
    [("min", optIntToJVal o.min), ("max", optIntToJVal o.max),
     ("avg", optIntToJVal o.avg), ("median", optIntToJVal o.median),
     ("volume", optIntToJVal o.volume),
     ("weightedAverage", optIntToJVal o.weightedAverage),
     ("orderCount", optIntToJVal o.orderCount),
     ("fivePercent", optIntToJVal o.fivePercent)]

/-- The value returned by `sanitizeAgg_` seen as a JavaScript value:
null for a degraded record, otherwise an object with both sides, a
degraded side replaced by the empty object (the JS `buy || \x7b\x7d`). -/
def sanitizeAggJ (row : JVal) : JVal :=
  match sanitizeAgg_ row with
  | none => JVal.vnull
  | some a =>
      JVal.vobj
        [("buy", match a.buy with
                 | some o => o.toJVal
                 | none => JVal.vobj []),
         ("sell", match a.sell with
                  | some o => o.toJVal
                  | none => JVal.vobj [])]

/-- Output of the read-path metric extractor: a spreadsheet blank or a
number. -/
inductive Metric where
  | blank
  | num (v : Int)
deriving DecidableEq, Repr

/-- Truthiness-and-emptiness test used by `_extractMetric_`: the raw
value is null, undefined or the empty string. -/
def isNullUndefEmpty (v : JVal) : Bool :=
  match v with
  | JVal.vnull => true
  | JVal.vundef => true
  | JVal.vstr s => s == ""
  | _ => false

/-- Embedding of `_extractMetric_` (src/src/Main.js lines 623-636): a
missing row or side node gives blank; a null / undefined / empty raw
value gives 0 for the volume and orderCount fields but blank for every
other field; otherwise the raw value is coerced with `Number` and kept
only when finite. -/
def extractMetric_ (aggRow : JVal) (side field : String) : Metric :=
  match aggRow with
  | JVal.vobj fs =>
      match objGet fs side with
      | JVal.vobj nfs =>
          let raw := objGet nfs field
          if (field == "volume" || field == "orderCount") && isNullUndefEmpty raw then
            Metric.num 0
          else if isNullUndefEmpty raw then Metric.blank
          else
            match jsToNumber raw with
            | JNum.fin n => Metric.num n
            | JNum.nonfin => Metric.blank
      | _ => Metric.blank
  | _ => Metric.blank

/-- Negative-cache TTL (`FUZ_NEG_TTL`, src/src/Main.js line 172): six
hours, in seconds. -/
def FUZ_NEG_TTL : Nat := 6 * 60 * 60

/-- Embedding of `ttlForScope` (src/src/Main.js lines 178-181): positive
TTL per scope, in seconds; any scope other than region or system falls
back to the station TTL. -/
def ttlForScope (lt : String) : Nat :=
  if (jsToLower lt) = "region" then 30 * 60
  else if (jsToLower lt) = "system" then 20 * 60
  else 10 * 60

/-- Negative-cache TTL of the V3 scheduler (`NEGATIVE_CACHE_TTL_SEC`,
src/src/FuzzApiPrice.V3.gs.js line 262): six hours, in seconds. -/
def NEGATIVE_CACHE_TTL_SEC : Nat := 6 * 3600

/-- Embedding of the V3 `ttlForScope` (src/src/FuzzApiPrice.V3.gs.js
lines 124-126): thirty minutes for every scope. -/
def ttlForScopeV3 (_lt : String) : Nat := 30 * 60

/-- The jittered positive TTL of the V3 scheduler
(src/src/FuzzApiPrice.V3.gs.js lines 326-329): a random offset drawn
uniformly from -300 .. 300 is added and the result is clamped below at
600 seconds.  The random draw `Math.floor(Math.random() * 601)` is
modelled by `u : Fin 601`. -/
def jitteredTtlV3 (lt : String) (u : Fin 601) : Int :=
  max 600 ((ttlForScopeV3 lt : Int) + ((u : Int) - 300))

/-- Embedding of `withDocLock` (src/src/Main.js lines 200-204) over an
explicit state: when `tryLock` fails within the bounded wait the
function is invoked anyway (fail open); when the lock is acquired the
function is invoked and the lock released. -/
def withDocLock {σ α : Type} (lockAcquired : Bool) (fn : σ → σ × α) (s : σ) : σ × α :=
  if !lockAcquired then fn s
  else fn s

/-- An instrumented callback that counts its own invocations in the
threaded state, used to express that `withDocLock` runs its callback
exactly once. -/
def countCalls {α : Type} (f : Nat → α) : Nat → Nat × α :=
  fun calls => (calls + 1, f calls)

/-! ## Pending-fetch queue model

Item ids and location ids are the positive integers the sheet feeds in;
they are modelled as natural numbers.  A queue task mirrors the JSON
objects stored under `FUZ:MISSING_QUEUE`. -/

/-- A pending-fetch queue task (`\x7b location_id, location_type, ids \x7d`). -/
structure QTask where
  location_id : Nat
  location_type : String
  ids : List Nat
deriving DecidableEq, Repr

/-- The queue is the serialized array stored under the single queue
key. -/
abbrev Queue := List QTask

/-- Batch cap (`MAX_ID_PER_CHUNK`, src/src/FuzzApiPrice.V3.gs.js
line 16). -/
def MAX_ID_PER_CHUNK : Nat := 700

/-- Model of `Array.from(new Set(l))`: duplicates removed, first
occurrence kept, order preserved. -/
def jsSetDedup {α : Type} [DecidableEq α] (l : List α) : List α :=
  go l []
where
  /-- Worker carrying the set of elements already emitted. -/
  go : List α → List α → List α
  | [], _ => []
  | a :: l, seen => if a ∈ seen then go l seen else a :: go l (a :: seen)

/-- Fuel-indexed worker for `chunksOf`; the fuel is an upper bound on
the number of chunks. -/
def chunksOfAux : Nat → List Nat → List (List Nat)
  | 0, _ => []
  | fuel + 1, l =>
      if l.isEmpty then []
      else l.take MAX_ID_PER_CHUNK :: chunksOfAux fuel (l.drop MAX_ID_PER_CHUNK)

/-- Splitting an id list into chunks of at most `MAX_ID_PER_CHUNK` ids,
as the enqueue and consolidation loops do with `slice`. -/
def chunksOf (l : List Nat) : List (List Nat) :=
  chunksOfAux l.length l

/-- The task predicate used by every queue variant to find tasks of the
same location: `task.location_id === location_id &&
task.location_type === lt`. -/
def keyMatch (location_id : Nat) (lt : String) (t : QTask) : Bool :=
  t.location_id == location_id && t.location_type == lt

/-- The ids already queued for a location: the union of the id lists of
every task matching the location (the `existingIds` set of
src/src/FuzzApiPrice.V3.gs.js lines 141-146). -/
def existingIds (q : Queue) (location_id : Nat) (lt : String) : List Nat :=
  ((q.filter (keyMatch location_id lt)).map QTask.ids).flatten

/-- Embedding of the consolidated `_queueMissingItems`
(src/src/FuzzApiPrice.V3.gs.js lines 128-160): the missing ids are
deduplicated, ids already queued for the same location are dropped, and
the genuinely new ids are appended as chunks of at most
`MAX_ID_PER_CHUNK`. -/
def enqueueV3 (q : Queue) (missing : List Nat) (location_id : Nat)
    (location_type : String) : Queue :=
  if missing.isEmpty then q
  else
    let uniq := jsSetDedup missing
    if uniq.isEmpty then q
    else
      let lt := (jsToLower location_type)
      let newIds := uniq.filter (fun i => !((existingIds q location_id lt).contains i))
      q ++ (chunksOf newIds).map (fun c =>
        { location_id := location_id, location_type := lt, ids := c })

/-- Embedding of the older `_queueMissingItems`
(src/src/FuzzApiPrice.V3.gs.js lines 823-874): new ids are merged into
the first task found for the location, or a single new task holding all
the deduplicated ids is pushed — with no chunking in either branch. -/
def enqueueOld (q : Queue) (missing : List Nat) (location_id : Nat)
    (location_type : String) : Queue :=
  if missing.isEmpty then q
  else
    let uniq := jsSetDedup missing
    let lt := (jsToLower location_type)
    match q.findIdx? (keyMatch location_id lt) with
    | some idx =>
        match q[idx]? with
        | some t =>
            let newIds := uniq.filter (fun i => !(t.ids.contains i))
            if newIds.isEmpty then q
            else q.set idx { t with ids := t.ids ++ newIds }
        | none => q
    | none =>
        q ++ [{ location_id := location_id, location_type := lt, ids := uniq }]

/-- Embedding of the `_queueMissingItems` variant of
src/unnamed/part_001 (lines 368-443).  The value `none` models the
uncaught runtime error of the re-chunk branch, which dereferences the
undeclared variable `task` (lines 410-416).  When the first task found
for the location already holds every missing id, the `consolidated`
flag stays false and the code falls through to step 3, pushing a fresh
chunked task that duplicates the ids. -/
def enqueueP1 (q : Queue) (missing : List Nat) (location_id : Nat)
    (location_type : String) : Option Queue :=
  if missing.isEmpty then some q
  else
    let uniq := jsSetDedup missing
    let lt := (jsToLower location_type)
    match q.findIdx? (keyMatch location_id lt) with
    | some idx =>
        match q[idx]? with
        | some t =>
            let newIds := uniq.filter (fun i => !(t.ids.contains i))
            if newIds.isEmpty then
              some (q ++ (chunksOf uniq).map (fun c =>
                { location_id := location_id, location_type := lt, ids := c }))
            else
              let merged := t.ids ++ newIds
              if MAX_ID_PER_CHUNK < merged.length then none
              else some (q.set idx { t with ids := merged })
        | none => none
    | none =>
        some (q ++ (chunksOf uniq).map (fun c =>
          { location_id := location_id, location_type := lt, ids := c }))

/-- The location keys of a task list in first-seen order, as the
consolidation object of `fuzzworkCacheRefresh` builds them
(src/src/FuzzApiPrice.V3.gs.js lines 216-228). -/
def keysInOrder (tasks : List QTask) : List (String × Nat) :=
  jsSetDedup (tasks.map (fun t => (t.location_type, t.location_id)))

/-- The id set collected for one location key during consolidation: the
union, in order, of the id lists of the tasks with that key. -/
def idsForKey (tasks : List QTask) (k : String × Nat) : List Nat :=
  jsSetDedup (((tasks.filter (fun t => t.location_type == k.1 && t.location_id == k.2)).map QTask.ids).flatten)

/-- Embedding of the consolidation and re-chunking step of
`fuzzworkCacheRefresh` (src/src/FuzzApiPrice.V3.gs.js lines 215-240):
tasks are grouped by location key, id sets are unioned, and each merged
set is re-split into chunks of at most `MAX_ID_PER_CHUNK`. -/
def consolidateTasks (tasks : List QTask) : List QTask :=
  ((keysInOrder tasks).map (fun k =>
    (chunksOf (idsForKey tasks k)).map (fun c =>
      { location_id := k.2, location_type := k.1, ids := c : QTask }))).flatten

/-- Number of queued occurrences of an id for a given location, summed
over every matching task. -/
def occCount (q : Queue) (location_id : Nat) (lt : String) (i : Nat) : Nat :=
  (q.map (fun t => if keyMatch location_id lt t then t.ids.count i else 0)).sum

/-- Two tasks for the same location never share an id (the queue
invariant of the specification). -/
def TasksDisjoint (t1 t2 : QTask) : Prop :=
  t1.location_id = t2.location_id → t1.location_type = t2.location_type →
    ∀ i, i ∈ t1.ids → i ∉ t2.ids

/-- The queue invariant: pairwise, no two tasks for the same location
contain an overlapping id. -/
def QueueInv (q : Queue) : Prop :=
  q.Pairwise TasksDisjoint

/-! ## Batch fetcher: transport outcome and classification -/

/-- Outcome of one transport attempt for one task, as seen after
`UrlFetchApp`: an HTTP status code together with the parsed JSON body;
`none` for the body models a `JSON.parse` failure (the `catch`
branch). -/
inductive FetchResp where
  | http (code : Nat) (body : Option (List (String × JVal)))

/-- Embedding of the per-slice classification of
`fetchFuzzAggsInBatches_` (src/src/Main.js lines 416-424): on transport
success every requested id maps to its row when the body has the key
and to null (confirmed absent) otherwise; on transport failure every
requested id maps to undefined, which the caller is documented to skip
when caching. -/
def classifySlice (succeeded : Bool) (obj : List (String × JVal))
    (slice : List Nat) : List (Nat × JVal) :=
  if succeeded then
    slice.map (fun id =>
      (id, if (obj.map Prod.fst).contains (toString id) then objGet obj (toString id)
           else JVal.vnull))
  else slice.map (fun id => (id, JVal.vundef))

/-- Embedding of the per-task cache-write computation of the V3
`fuzzyFetchAll` (src/src/FuzzApiPrice.V3.gs.js lines 281-323).  The
result is the pair (ids written positively, ids written with the
negative sentinel), both as the stringified ids used in cache keys.  On
a 200 response with a parsable body, every received key is written
positively and every requested id missing from the body negatively; on
a non-200 response, and likewise when parsing throws, every requested
id is written with the negative sentinel. -/
def fuzzyProcessTask (task : QTask) (resp : FetchResp) : List String × List String :=
  match resp with
  | FetchResp.http code body =>
      if code = 200 then
        match body with
        | some obj =>
            let received := jsSetDedup (obj.map Prod.fst)
            let requested := task.ids.map toString
            (received, requested.filter (fun s => !(received.contains s)))
        | none => ([], task.ids.map toString)
      else ([], task.ids.map toString)

/-! ## postFetch: cache re-read, classification and write maps -/

/-- Codomain of `_parseCached_` (src/src/Main.js lines 216-230): a true
miss (undefined), the negative sentinel string, or a parsed object. -/
inductive Cached where
  | miss
  | negSentinel
  | objHit (o : List (String × JVal))

/-- The write maps and per-id results computed by the tail of
`postFetch`. -/
structure WriteOutcome where
  toPutPos : List Nat
  toPutNeg : List Nat
  result : List (Nat × JVal)

/-- Embedding of the classification-and-write phase of `postFetch`
(src/src/Main.js lines 510-535).  For every missed id the cache is
re-read; on a re-read miss the fetched value is sanitized; a truthy row
is written positively (when the serialized row fits the size cap,
modelled by `fits`) and a null row is written with the negative
sentinel.  `fetched` maps an id to undefined when the transports were
exhausted for its batch. -/
def postFetchWritePhase (misses : List Nat) (re : Nat → Cached)
    (fetched : Nat → JVal) (fits : List (String × JVal) → Bool) : WriteOutcome :=
  misses.foldl (fun acc id =>
    let row : JVal :=
      match re id with
      | Cached.objHit o => JVal.vobj o
      | Cached.negSentinel => JVal.vnull
      | Cached.miss => sanitizeAggJ (fetched id)
    match row with
    | JVal.vnull =>
        { acc with toPutNeg := acc.toPutNeg ++ [id],
                   result := acc.result ++ [(id, JVal.vnull)] }
    | JVal.vobj o =>
        { acc with toPutPos := if fits o then acc.toPutPos ++ [id] else acc.toPutPos,
                   result := acc.result ++ [(id, JVal.vobj o)] }
    | _ => acc)
    { toPutPos := [], toPutNeg := [], result := [] }

/-! ## Claim coordinator -/

/-- Cache state for one data key: the data entry and the claim entry
(the raw strings stored by `CacheService`, absent when expired). -/
structure KeyState where
  data : Option String
  claim : Option String

/-- Embedding of the lock-protected claim section of `postFetch`
(src/src/Main.js lines 471-486) restricted to one key: the data and
claim entries are re-read under the lock; the key is claimable only
when neither exists, in which case a claim stamp is written with the
claim TTL.  The boolean result is whether this caller claimed the key;
in `postFetch` the network fetch runs exactly when the claimed list is
non-empty, so it equals "this caller fetches". -/
def claimCheckAndClaim (stamp : String) (s : KeyState) : KeyState × Bool :=
  if s.data.isNone && s.claim.isNone then
    ({ s with claim := some stamp }, true)
  else (s, false)

/-- Running `n` claim attempts for the same key, one after the other
(the script lock serializes the critical sections).  Returns the final
state and the number of attempts that were granted the claim. -/
def runClaimants (stamps : Nat → String) : Nat → KeyState → KeyState × Nat
  | 0, s => (s, 0)
  | n + 1, s =>
      let p := claimCheckAndClaim (stamps n) s
      let r := runClaimants stamps n p.1
      (r.1, (if p.2 then 1 else 0) + r.2)

/-! ## Helper lemmas -/

theorem mem_jsSetDedup_go {α : Type} [DecidableEq α] (l : List α) :
    ∀ (seen : List α) (a : α),
      a ∈ jsSetDedup.go l seen ↔ a ∈ l ∧ a ∉ seen := by
  induction l with
  | nil => intro seen a; simp [jsSetDedup.go]
  | cons b l ih =>
      intro seen a
      by_cases hb : b ∈ seen
      · rw [jsSetDedup.go, if_pos hb, ih]
        constructor
        · exact fun h => ⟨List.mem_cons_of_mem _ h.1, h.2⟩
        · rintro ⟨h1, h2⟩
          rcases List.mem_cons.mp h1 with rfl | h1
          · exact absurd hb h2
          · exact ⟨h1, h2⟩
      · rw [jsSetDedup.go, if_neg hb]
        by_cases hab : a = b
        · subst hab; simp [hb]
        · simp [List.mem_cons, hab, ih]

theorem mem_jsSetDedup {α : Type} [DecidableEq α] (l : List α) (a : α) :
    a ∈ jsSetDedup l ↔ a ∈ l := by
  rw [jsSetDedup, mem_jsSetDedup_go]
  simp

theorem nodup_jsSetDedup_go {α : Type} [DecidableEq α] (l : List α) :
    ∀ seen : List α, (jsSetDedup.go l seen).Nodup := by
  induction l with
  | nil => intro seen; simp [jsSetDedup.go]
  | cons b l ih =>
      intro seen
      by_cases hb : b ∈ seen
      · rw [jsSetDedup.go, if_pos hb]; exact ih seen
      · rw [jsSetDedup.go, if_neg hb]
        refine List.nodup_cons.mpr ⟨?_, ih _⟩
        intro hmem
        exact ((mem_jsSetDedup_go l _ b).mp hmem).2 (List.mem_cons_self _ _)

theorem nodup_jsSetDedup {α : Type} [DecidableEq α] (l : List α) :
    (jsSetDedup l).Nodup :=
  nodup_jsSetDedup_go l []

theorem chunksOfAux_flatten (fuel : Nat) :
    ∀ l : List Nat, l.length ≤ fuel → (chunksOfAux fuel l).flatten = l := by
  induction fuel with
  | zero =>
      intro l h
      have : l = [] := List.eq_nil_of_length_eq_zero (Nat.le_zero.mp h)
      simp [this, chunksOfAux]
  | succ n ih =>
      intro l h
      cases l with
      | nil => simp [chunksOfAux]
      | cons a t =>
          rw [chunksOfAux]
          rw [if_neg (by simp)]
          rw [List.flatten_cons, ih]
          · exact List.take_append_drop _ _
          · simp only [List.length_drop, List.length_cons, MAX_ID_PER_CHUNK] at h ⊢
            omega

theorem chunksOf_flatten (l : List Nat) : (chunksOf l).flatten = l :=
  chunksOfAux_flatten l.length l (Nat.le_refl _)

theorem length_le_of_mem_chunksOfAux (fuel : Nat) :
    ∀ (l c : List Nat), c ∈ chunksOfAux fuel l → c.length ≤ MAX_ID_PER_CHUNK := by
  induction fuel with
  | zero => intro l c h; simp [chunksOfAux] at h
  | succ n ih =>
      intro l c h
      cases l with
      | nil => simp [chunksOfAux] at h
      | cons a t =>
          rw [chunksOfAux, if_neg (by simp)] at h
          rcases List.mem_cons.mp h with rfl | h
          · rw [List.length_take]; exact Nat.min_le_left _ _
          · exact ih _ _ h

theorem length_le_of_mem_chunksOf (l c : List Nat) (h : c ∈ chunksOf l) :
    c.length ≤ MAX_ID_PER_CHUNK :=
  length_le_of_mem_chunksOfAux l.length l c h

theorem mem_of_mem_chunksOf {l c : List Nat} {i : Nat}
    (hc : c ∈ chunksOf l) (hi : i ∈ c) : i ∈ l := by
  rw [← chunksOf_flatten l]
  exact List.mem_flatten.mpr ⟨c, hc, hi⟩

theorem exists_chunk_of_mem {l : List Nat} {i : Nat} (hi : i ∈ l) :
    ∃ c ∈ chunksOf l, i ∈ c := by
  have := (chunksOf_flatten l).symm ▸ hi
  exact List.mem_flatten.mp this

theorem nodup_of_mem_chunksOf {l c : List Nat} (hl : l.Nodup)
    (hc : c ∈ chunksOf l) : c.Nodup := by
  have hfl : (chunksOf l).flatten.Nodup := (chunksOf_flatten l).symm ▸ hl
  exact (List.nodup_flatten.mp hfl).1 c hc

theorem chunksOf_pairwise_disjoint {l : List Nat} (hl : l.Nodup) :
    (chunksOf l).Pairwise (fun c1 c2 => ∀ i, i ∈ c1 → i ∉ c2) := by
  have hfl : (chunksOf l).flatten.Nodup := (chunksOf_flatten l).symm ▸ hl
  have := (List.nodup_flatten.mp hfl).2
  refine this.imp ?_
  intro c1 c2 h i h1 h2
  exact (List.disjoint_left.mp h) h1 h2

theorem mem_existingIds {q : Queue} {L : Nat} {lt : String} {i : Nat} :
    i ∈ existingIds q L lt ↔ ∃ t, t ∈ q ∧ keyMatch L lt t = true ∧ i ∈ t.ids := by
  simp only [existingIds, List.mem_flatten, List.mem_map, List.mem_filter]
  constructor
  · rintro ⟨ids, ⟨t, ⟨htq, htk⟩, rfl⟩, hi⟩
    exact ⟨t, htq, htk, hi⟩
  · rintro ⟨t, htq, htk, hi⟩
    exact ⟨t.ids, ⟨t, ⟨htq, htk⟩, rfl⟩, hi⟩

theorem occCount_append (q1 q2 : Queue) (L : Nat) (lt : String) (i : Nat) :
    occCount (q1 ++ q2) L lt i = occCount q1 L lt i + occCount q2 L lt i := by
  simp [occCount]

theorem occCount_cons (t : QTask) (q : Queue) (L : Nat) (lt : String) (i : Nat) :
    occCount (t :: q) L lt i =
      (if keyMatch L lt t then t.ids.count i else 0) + occCount q L lt i := by
  simp [occCount]

theorem occCount_pos_iff {q : Queue} {L : Nat} {lt : String} {i : Nat} :
    0 < occCount q L lt i ↔ i ∈ existingIds q L lt := by
  rw [mem_existingIds]
  induction q with
  | nil => simp [occCount]
  | cons t q ih =>
      rw [occCount_cons]
      constructor
      · intro h
        by_cases hk : keyMatch L lt t
        · rw [if_pos hk] at h
          by_cases hc : 0 < t.ids.count i
          · exact ⟨t, List.mem_cons_self _ _, hk, List.count_pos_iff.mp hc⟩
          · have hrest : 0 < occCount q L lt i := by omega
            obtain ⟨u, hu, hku, hiu⟩ := ih.mp hrest
            exact ⟨u, List.mem_cons_of_mem _ hu, hku, hiu⟩
        · rw [if_neg hk, Nat.zero_add] at h
          obtain ⟨u, hu, hku, hiu⟩ := ih.mp h
          exact ⟨u, List.mem_cons_of_mem _ hu, hku, hiu⟩
      · rintro ⟨u, hu, hku, hiu⟩
        rcases List.mem_cons.mp hu with rfl | hu
        · rw [if_pos hku]
          have : 0 < u.ids.count i := List.count_pos_iff.mpr hiu
          omega
        · have := ih.mpr ⟨u, hu, hku, hiu⟩
          split <;> omega

theorem jsSetDedup_nil_iff {α : Type} [DecidableEq α] (l : List α) :
    jsSetDedup l = [] ↔ l = [] := by
  cases l with
  | nil => simp [jsSetDedup, jsSetDedup.go]
  | cons a t => simp [jsSetDedup, jsSetDedup.go]

theorem enqueueV3_eq (q : Queue) (m : List Nat) (L : Nat) (lt : String)
    (hm : m ≠ []) :
    enqueueV3 q m L lt =
      q ++ (chunksOf ((jsSetDedup m).filter
        (fun i => !((existingIds q L (jsToLower lt)).contains i)))).map
          (fun c => { location_id := L, location_type := (jsToLower lt), ids := c }) := by
  unfold enqueueV3
  rw [if_neg (by simpa [List.isEmpty_iff] using hm),
      if_neg (by simpa [List.isEmpty_iff, jsSetDedup_nil_iff] using hm)]

theorem enqueueV3_preserves_inv (q : Queue) (m : List Nat) (L : Nat) (lt : String)
    (h : QueueInv q) : QueueInv (enqueueV3 q m L lt) := by
  by_cases hm : m = []
  · subst hm; simpa [enqueueV3] using h
  rw [enqueueV3_eq q m L lt hm]
  have hnodup : ((jsSetDedup m).filter
      (fun i => !((existingIds q L (jsToLower lt)).contains i))).Nodup :=
    (nodup_jsSetDedup m).filter _
  rw [QueueInv, List.pairwise_append]
  refine ⟨h, ?_, ?_⟩
  · rw [List.pairwise_map]
    refine (chunksOf_pairwise_disjoint hnodup).imp ?_
    intro c1 c2 hdisj
    intro _ _ i hi
    exact hdisj i hi
  · intro a ha b hb
    obtain ⟨c, hc, rfl⟩ := List.mem_map.mp hb
    intro hid hty i hia hib
    have hkey : keyMatch L (jsToLower lt) a = true := by
      simp only [keyMatch, Bool.and_eq_true, beq_iff_eq]
      exact ⟨hid, hty⟩
    have hex : i ∈ existingIds q L (jsToLower lt) :=
      mem_existingIds.mpr ⟨a, ha, hkey, hia⟩
    have hni := mem_of_mem_chunksOf hc hib
    have hfilt := (List.mem_filter.mp hni).2
    rw [Bool.not_eq_eq_eq_not, Bool.not_true] at hfilt
    exact absurd (List.elem_iff.mpr hex) (by simpa [List.contains] using hfilt)

theorem enqueueV3_single (q : Queue) (i L : Nat) (lt : String) :
    enqueueV3 q [i] L lt =
      if i ∈ existingIds q L (jsToLower lt) then q
      else q ++ [{ location_id := L, location_type := (jsToLower lt), ids := [i] }] := by
  rw [enqueueV3_eq q [i] L lt (by simp)]
  have hded : jsSetDedup [i] = [i] := rfl
  rw [hded]
  by_cases hmem : i ∈ existingIds q L (jsToLower lt)
  · rw [if_pos hmem]
    have hf : ([i].filter (fun j => !((existingIds q L (jsToLower lt)).contains j))) = [] := by
      simp [List.filter, hmem]
    rw [hf]
    simp [chunksOf, chunksOfAux]
  · rw [if_neg hmem]
    have hf : ([i].filter (fun j => !((existingIds q L (jsToLower lt)).contains j))) = [i] := by
      simp [List.filter, hmem]
    rw [hf]
    have hch : chunksOf [i] = [[i]] := rfl
    rw [hch]
    rfl

theorem enqueueV3_double (q : Queue) (i L : Nat) (lt : String)
    (h : occCount q L (jsToLower lt) i ≤ 1) :
    occCount (enqueueV3 (enqueueV3 q [i] L lt) [i] L lt) L (jsToLower lt) i = 1 := by
  by_cases hmem : i ∈ existingIds q L (jsToLower lt)
  · have h1 : 0 < occCount q L (jsToLower lt) i := occCount_pos_iff.mpr hmem
    rw [enqueueV3_single q i L lt, if_pos hmem, enqueueV3_single q i L lt,
        if_pos hmem]
    omega
  · have hocc0 : occCount q L (jsToLower lt) i = 0 := by
      by_contra hc
      exact hmem (occCount_pos_iff.mp (by omega))
    rw [enqueueV3_single q i L lt, if_neg hmem]
    set tnew : QTask := { location_id := L, location_type := (jsToLower lt), ids := [i] }
      with htnew
    have hkt : keyMatch L (jsToLower lt) tnew = true := by
      simp [keyMatch, htnew]
    have hmem2 : i ∈ existingIds (q ++ [tnew]) L (jsToLower lt) :=
      mem_existingIds.mpr ⟨tnew, by simp, hkt, by simp [htnew]⟩
    rw [enqueueV3_single (q ++ [tnew]) i L lt, if_pos hmem2,
        occCount_append, hocc0]
    simp [occCount, hkt, htnew]

theorem enqueueV3_cap (q : Queue) (m : List Nat) (L : Nat) (lt : String)
    (hq : ∀ t ∈ q, t.ids.length ≤ MAX_ID_PER_CHUNK) :
    ∀ t ∈ enqueueV3 q m L lt, t.ids.length ≤ MAX_ID_PER_CHUNK := by
  by_cases hm : m = []
  · subst hm; simpa [enqueueV3] using hq
  rw [enqueueV3_eq q m L lt hm]
  intro t ht
  rcases List.mem_append.mp ht with h | h
  · exact hq t h
  · obtain ⟨c, hc, rfl⟩ := List.mem_map.mp h
    simpa using length_le_of_mem_chunksOf _ _ hc

theorem enqueueV3_no_drop (q : Queue) (m : List Nat) (L : Nat) (lt : String)
    (i : Nat) (hi : i ∈ m) :
    1 ≤ occCount (enqueueV3 q m L lt) L (jsToLower lt) i := by
  have hm : m ≠ [] := by rintro rfl; simp at hi
  rw [enqueueV3_eq q m L lt hm, occCount_append]
  by_cases hmem : i ∈ existingIds q L (jsToLower lt)
  · have := occCount_pos_iff.mpr hmem
    omega
  · have hiu : i ∈ jsSetDedup m := (mem_jsSetDedup m i).mpr hi
    have hin : i ∈ (jsSetDedup m).filter
        (fun j => !((existingIds q L (jsToLower lt)).contains j)) :=
      List.mem_filter.mpr ⟨hiu, by simp [hmem]⟩
    obtain ⟨c, hc, hic⟩ := exists_chunk_of_mem hin
    have hkc : keyMatch L (jsToLower lt)
        { location_id := L, location_type := (jsToLower lt), ids := c } = true := by
      simp [keyMatch]
    have : 0 < occCount ((chunksOf ((jsSetDedup m).filter
        (fun j => !((existingIds q L (jsToLower lt)).contains j)))).map
          (fun c => { location_id := L, location_type := (jsToLower lt), ids := c }))
          L (jsToLower lt) i :=
      occCount_pos_iff.mpr (mem_existingIds.mpr
        ⟨_, List.mem_map.mpr ⟨c, hc, rfl⟩, hkc, hic⟩)
    omega

theorem consolidate_cap (ts : List QTask) :
    ∀ t ∈ consolidateTasks ts, t.ids.length ≤ MAX_ID_PER_CHUNK := by
  intro t ht
  simp only [consolidateTasks, List.mem_flatten, List.mem_map] at ht
  obtain ⟨l, ⟨k, hk, rfl⟩, ht⟩ := ht
  obtain ⟨c, hc, rfl⟩ := List.mem_map.mp ht
  simpa using length_le_of_mem_chunksOf _ _ hc

theorem consolidate_mem_iff (ts : List QTask) (L : Nat) (lt : String) (i : Nat) :
    (∃ t, t ∈ consolidateTasks ts ∧ keyMatch L lt t = true ∧ i ∈ t.ids) ↔
    (∃ t, t ∈ ts ∧ keyMatch L lt t = true ∧ i ∈ t.ids) := by
  constructor
  · rintro ⟨t, ht, hkt, hit⟩
    simp only [consolidateTasks, List.mem_flatten, List.mem_map] at ht
    obtain ⟨l, ⟨k, hk, rfl⟩, ht⟩ := ht
    obtain ⟨c, hc, rfl⟩ := List.mem_map.mp ht
    simp only [keyMatch, Bool.and_eq_true, beq_iff_eq] at hkt
    obtain ⟨hk2, hk1⟩ := hkt
    have hic : i ∈ idsForKey ts k := mem_of_mem_chunksOf hc hit
    rw [idsForKey, mem_jsSetDedup] at hic
    obtain ⟨ids, hids, hi⟩ := List.mem_flatten.mp hic
    obtain ⟨u, hu, rfl⟩ := List.mem_map.mp hids
    have hufil := List.mem_filter.mp hu
    simp only [Bool.and_eq_true, beq_iff_eq] at hufil
    refine ⟨u, hufil.1, ?_, hi⟩
    simp only [keyMatch, Bool.and_eq_true, beq_iff_eq]
    exact ⟨by rw [hufil.2.2, hk2], by rw [hufil.2.1, hk1]⟩
  · rintro ⟨u, hu, hku, hiu⟩
    simp only [keyMatch, Bool.and_eq_true, beq_iff_eq] at hku
    have hkmem : ((lt, L) : String × Nat) ∈ keysInOrder ts := by
      rw [keysInOrder, mem_jsSetDedup]
      exact List.mem_map.mpr ⟨u, hu, by rw [hku.1, hku.2]⟩
    have hidm : i ∈ idsForKey ts (lt, L) := by
      rw [idsForKey, mem_jsSetDedup]
      refine List.mem_flatten.mpr ⟨u.ids, List.mem_map.mpr ⟨u, ?_, rfl⟩, hiu⟩
      refine List.mem_filter.mpr ⟨hu, ?_⟩
      simp only [Bool.and_eq_true, beq_iff_eq]
      exact ⟨hku.2, hku.1⟩
    obtain ⟨c, hc, hic⟩ := exists_chunk_of_mem hidm
    refine ⟨{ location_id := L, location_type := lt, ids := c }, ?_, by simp [keyMatch], hic⟩
    simp only [consolidateTasks, List.mem_flatten, List.mem_map]
    exact ⟨_, ⟨(lt, L), hkmem, rfl⟩, List.mem_map.mpr ⟨c, hc, rfl⟩⟩

theorem substAvg_min (o : SideOut) : (substAvg o).min = o.min := by
  unfold substAvg; split <;> rfl

theorem substAvg_max (o : SideOut) : (substAvg o).max = o.max := by
  unfold substAvg; split <;> rfl

theorem substAvg_median (o : SideOut) : (substAvg o).median = o.median := by
  unfold substAvg; split <;> rfl

theorem substAvg_volume (o : SideOut) : (substAvg o).volume = o.volume := by
  unfold substAvg; split <;> rfl

theorem substAvg_weightedAverage (o : SideOut) :
    (substAvg o).weightedAverage = o.weightedAverage := by
  unfold substAvg; split <;> rfl

theorem substAvg_orderCount (o : SideOut) :
    (substAvg o).orderCount = o.orderCount := by
  unfold substAvg; split <;> rfl

theorem substAvg_fivePercent (o : SideOut) :
    (substAvg o).fivePercent = o.fivePercent := by
  unfold substAvg; split <;> rfl

theorem substAvg_avg (o : SideOut) :
    (substAvg o).avg = if o.avg = none then o.weightedAverage else o.avg := by
  unfold substAvg
  by_cases h1 : o.avg = none
  · by_cases h2 : o.weightedAverage = none
    · rw [if_neg (by simp [h2]), if_pos h1, h1, h2]
    · rw [if_pos ⟨h1, h2⟩, if_pos h1]
  · rw [if_neg (by simp [h1]), if_neg h1]

theorem normalizeSide_some_eq {fs : List (String × JVal)} {o : SideOut}
    (h : normalizeSide (JVal.vobj fs) = some o) :
    o = substAvg (rawSide fs) := by
  unfold normalizeSide at h
  by_cases hc : sideHasValue (substAvg (rawSide fs))
  · simp only [hc, if_true] at h
    exact (Option.some_injective _ h).symm
  · simp only [hc] at h
    simp at h

theorem sideHasValue_false_iff (o : SideOut) :
    sideHasValue o = false ↔
      o.min = none ∧ o.max = none ∧ o.avg = none ∧ o.median = none ∧
      o.volume = none ∧ o.weightedAverage = none ∧ o.orderCount = none ∧
      o.fivePercent = none := by
  simp only [sideHasValue, Bool.or_eq_false_iff]
  simp only [Bool.eq_false_iff, Option.isSome_iff_ne_none, ne_eq, not_not]
  tauto

theorem normalizeSide_none_iff (fs : List (String × JVal)) :
    normalizeSide (JVal.vobj fs) = none ↔
      ∀ k ∈ FUZZ_FIELDS, toNumOrNull (objGet fs k) = none := by
  unfold normalizeSide
  have hstep : (if sideHasValue (substAvg (rawSide fs))
        then some (substAvg (rawSide fs)) else none) = none ↔
      sideHasValue (substAvg (rawSide fs)) = false := by
    by_cases hc : sideHasValue (substAvg (rawSide fs)) <;> simp [hc]
  rw [hstep, sideHasValue_false_iff,
      substAvg_min, substAvg_max, substAvg_avg, substAvg_median,
      substAvg_volume, substAvg_weightedAverage, substAvg_orderCount,
      substAvg_fivePercent]
  simp only [FUZZ_FIELDS, List.mem_cons, List.not_mem_nil, or_false]
  constructor
  · rintro ⟨h1, h2, h3, h4, h5, h6, h7, h8⟩
    have havg : (rawSide fs).avg = none := by
      by_cases ha : (rawSide fs).avg = none
      · exact ha
      · rw [if_neg ha] at h3; exact absurd h3 ha
    intro k hk
    rcases hk with rfl | rfl | rfl | rfl | rfl | rfl | rfl | rfl
    · exact h1
    · exact h2
    · exact havg
    · exact h4
    · exact h5
    · exact h6
    · exact h7
    · exact h8
  · intro h
    have h1 := h "min" (by simp)
    have h2 := h "max" (by simp)
    have h3 := h "avg" (by simp)
    have h4 := h "median" (by simp)
    have h5 := h "volume" (by simp)
    have h6 := h "weightedAverage" (by simp)
    have h7 := h "orderCount" (by simp)
    have h8 := h "fivePercent" (by simp)
    refine ⟨h1, h2, ?_, h4, h5, h6, h7, h8⟩
    show (if (rawSide fs).avg = none then (rawSide fs).weightedAverage
          else (rawSide fs).avg) = none
    rw [if_pos (show (rawSide fs).avg = none from h3)]
    exact h6

theorem normalizeSide_not_obj (v : JVal) (h : ∀ fs, v ≠ JVal.vobj fs) :
    normalizeSide v = none := by
  cases v with
  | vobj fs => exact absurd rfl (h fs)
  | vnull => rfl
  | vundef => rfl
  | vnum n => rfl
  | vstr s => rfl
  | vbool b => rfl

/-! ## Claim theorems -/

/-- Claim C1: an empty string (including a whitespace-only string after
trimming) is coerced by numeric-field sanitization to the no-value
result null, never to the number 0: `toNumOrNull` gives null on every
trim-empty string, in particular on the empty string, and a sanitized
aggregate field fed an empty string is stored as null (for the avg
field provided the documented weightedAverage fallback is also null,
since that fallback may lawfully fill avg). -/
theorem C1_empty_string_no_value :
    (∀ s : String, jsTrim s = "" → toNumOrNull (JVal.vstr s) = none) ∧
    toNumOrNull (JVal.vstr "") = none ∧
    (∀ (fs : List (String × JVal)) (k : String), k ∈ FUZZ_FIELDS →
      objGet fs k = JVal.vstr "" →
      (k = "avg" → toNumOrNull (objGet fs "weightedAverage") = none) →
      ∀ o, normalizeSide (JVal.vobj fs) = some o → SideOut.get o k = none) := by
  refine ⟨?_, rfl, ?_⟩
  · intro s h
    simp [toNumOrNull, h]
  · intro fs k hk hobj hwa o ho
    have heq := normalizeSide_some_eq ho
    subst heq
    simp only [FUZZ_FIELDS, List.mem_cons, List.not_mem_nil, or_false] at hk
    rcases hk with rfl | rfl | rfl | rfl | rfl | rfl | rfl | rfl
    · show (substAvg (rawSide fs)).min = none
      rw [substAvg_min]
      show toNumOrNull (objGet fs "min") = none
      rw [hobj]
      rfl
    · show (substAvg (rawSide fs)).max = none
      rw [substAvg_max]
      show toNumOrNull (objGet fs "max") = none
      rw [hobj]
      rfl
    · show (substAvg (rawSide fs)).avg = none
      rw [substAvg_avg]
      have h1 : (rawSide fs).avg = none := by
        show toNumOrNull (objGet fs "avg") = none
        rw [hobj]
        rfl
      rw [if_pos h1]
      exact hwa rfl
    · show (substAvg (rawSide fs)).median = none
      rw [substAvg_median]
      show toNumOrNull (objGet fs "median") = none
      rw [hobj]
      rfl
    · show (substAvg (rawSide fs)).volume = none
      rw [substAvg_volume]
      show toNumOrNull (objGet fs "volume") = none
      rw [hobj]
      rfl
    · show (substAvg (rawSide fs)).weightedAverage = none
      rw [substAvg_weightedAverage]
      show toNumOrNull (objGet fs "weightedAverage") = none
      rw [hobj]
      rfl
    · show (substAvg (rawSide fs)).orderCount = none
      rw [substAvg_orderCount]
      show toNumOrNull (objGet fs "orderCount") = none
      rw [hobj]
      rfl
    · show (substAvg (rawSide fs)).fivePercent = none
      rw [substAvg_fivePercent]
      show toNumOrNull (objGet fs "fivePercent") = none
      rw [hobj]
      rfl

/-- Witness for C1 at concrete inputs: a whitespace string coerces to
null, and a side whose min field is the empty string stores null for
min while keeping max. -/
theorem C1_empty_string_no_value_witness :
    (jsTrim "  " = "") ∧ toNumOrNull (JVal.vstr "  ") = none ∧
    normalizeSide (JVal.vobj [("min", JVal.vstr ""),
        ("max", JVal.vnum (JNum.fin 3))]) =
      some { min := none, max := some 3, avg := none, median := none,
             volume := none, weightedAverage := none, orderCount := none,
             fivePercent := none } ∧
    SideOut.get { min := none, max := some 3, avg := none, median := none,
                  volume := none, weightedAverage := none, orderCount := none,
                  fivePercent := none } "min" = none := by
  refine ⟨rfl, C1_empty_string_no_value.1 "  " rfl, rfl, ?_⟩
  have := C1_empty_string_no_value.2.2
    [("min", JVal.vstr ""), ("max", JVal.vnum (JNum.fin 3))] "min"
    (by simp [FUZZ_FIELDS]) rfl
    (fun h => absurd h (by decide))
    { min := none, max := some 3, avg := none, median := none,
      volume := none, weightedAverage := none, orderCount := none,
      fivePercent := none } rfl
  exact this

/-- Claim C4: the negative-cache TTL (6 hours) strictly exceeds every
positive-entry TTL of the same scope: the scope-scaled TTLs of
`ttlForScope` (at most 30 minutes, for every scope string) and the
jittered V3 TTL (at most 35 minutes even at maximal jitter) all lie
strictly below it. -/
theorem C4_negative_ttl_exceeds_positive (lt : String) (u : Fin 601) :
    ttlForScope lt < FUZ_NEG_TTL ∧
    jitteredTtlV3 lt u < (NEGATIVE_CACHE_TTL_SEC : Int) := by
  constructor
  · unfold ttlForScope FUZ_NEG_TTL
    split
    · omega
    · split <;> omega
  · unfold jitteredTtlV3 ttlForScopeV3 NEGATIVE_CACHE_TTL_SEC
    have h2 : ((u : Nat) : Int) < 601 := by exact_mod_cast u.isLt
    apply max_lt
    · omega
    · push_cast
      omega

/-- Claim C9: when the bounded `tryLock` wait times out, `withDocLock`
still runs the callback exactly once (the instrumented call counter
rises by exactly one) and returns its result to the caller — the
operation fails open instead of raising. -/
theorem C9_lock_timeout_fails_open {α : Type} (f : Nat → α) (calls : Nat) :
    withDocLock false (countCalls f) calls = (calls + 1, f calls) := rfl

/-- Claim C10: read-path asymmetry of the metric extractor — when the
stored value of the requested field is null, undefined or the empty
string, `_extractMetric_` returns the number 0 for the volume and
orderCount fields but the blank string for every other field. -/
theorem C10_extract_metric_zero_asymmetry
    (fs nfs : List (String × JVal)) (side field : String)
    (hnode : objGet fs side = JVal.vobj nfs)
    (hraw : objGet nfs field = JVal.vnull ∨ objGet nfs field = JVal.vundef ∨
            objGet nfs field = JVal.vstr "") :
    extractMetric_ (JVal.vobj fs) side field =
      (if field = "volume" ∨ field = "orderCount" then Metric.num 0
       else Metric.blank) := by
  have hne : isNullUndefEmpty (objGet nfs field) = true := by
    rcases hraw with h | h | h <;> rw [h] <;> rfl
  by_cases hf : field = "volume" ∨ field = "orderCount"
  · have hb : (field == "volume" || field == "orderCount") = true := by
      rcases hf with rfl | rfl <;> simp
    rw [if_pos hf]
    simp [extractMetric_, hnode, hb, hne]
  · have hb : (field == "volume" || field == "orderCount") = false := by
      rcases not_or.mp hf with ⟨h1, h2⟩
      simp [h1, h2]
    rw [if_neg hf]
    simp [extractMetric_, hnode, hb, hne]

/-- Witness for C10 at a concrete cached row with an empty side
object: volume extracts as 0 and min as blank. -/
theorem C10_extract_metric_zero_asymmetry_witness :
    objGet [("sell", JVal.vobj [])] "sell" = JVal.vobj [] ∧
    objGet ([] : List (String × JVal)) "volume" = JVal.vundef ∧
    extractMetric_ (JVal.vobj [("sell", JVal.vobj [])]) "sell" "volume" =
      Metric.num 0 ∧
    extractMetric_ (JVal.vobj [("sell", JVal.vobj [])]) "sell" "min" =
      Metric.blank := by
  refine ⟨rfl, rfl, ?_, ?_⟩
  · have := C10_extract_metric_zero_asymmetry [("sell", JVal.vobj [])] []
      "sell" "volume" rfl (Or.inr (Or.inl rfl))
    rw [if_pos (Or.inl rfl)] at this
    exact this
  · have := C10_extract_metric_zero_asymmetry [("sell", JVal.vobj [])] []
      "sell" "min" rfl (Or.inr (Or.inl rfl))
    rw [if_neg (by decide)] at this
    exact this

/-- Claim C2 (code bug): contrary to the claim and to the DO-NOT-CACHE
comments of src/src/Main.js (lines 311-314 and 422), a fully failed
fetch IS cached negatively.  `sanitizeAgg_` maps the undefined
fetch-failed marker to null, so the write phase of `postFetch` files
the id under the negative write map (stored with the 6-hour negative
TTL) and resolves it as absent instead of skipping it; likewise the V3
`fuzzyFetchAll` writes the negative sentinel for every id of a task
whose only transport returned a non-200 status, and such a task is not
re-queued. -/
theorem C2_failed_fetch_is_negative_cached :
    postFetchWritePhase [34] (fun _ => Cached.miss) (fun _ => JVal.vundef)
        (fun _ => true) =
      { toPutPos := [], toPutNeg := [34], result := [(34, JVal.vnull)] } ∧
    fuzzyProcessTask
        { location_id := 60003760, location_type := "station", ids := [34] }
        (FetchResp.http 500 none) = ([], ["34"]) :=
  ⟨rfl, rfl⟩

theorem runClaimants_claimed (stamps : Nat → String) (n : Nat) :
    ∀ s : KeyState, s.claim.isSome → (runClaimants stamps n s).2 = 0 := by
  induction n with
  | zero => intro s _; rfl
  | succ k ih =>
      intro s h
      have hc : (s.data.isNone && s.claim.isNone) = false := by
        rcases s with ⟨d, c⟩
        cases c
        · simp at h
        · simp
      have hp : claimCheckAndClaim (stamps k) s = (s, false) := by
        rw [claimCheckAndClaim, if_neg (by simp [hc])]
      simp only [runClaimants, hp]
      simpa using ih s h

/-- Claim C3: single flight — with the script lock serializing the
claim-check critical sections, any number `n ≥ 1` of claim attempts for
a key with no data entry and no claim record grants the claim to
exactly one attempt; in `postFetch` the network fetch runs exactly when
the claimed list is non-empty, so the other attempts do not fetch. -/
theorem C3_single_flight (stamps : Nat → String) (n : Nat) (h : 1 ≤ n) :
    (runClaimants stamps n { data := none, claim := none }).2 = 1 := by
  obtain ⟨m, rfl⟩ : ∃ m, n = m + 1 := ⟨n - 1, by omega⟩
  show (if ((none : Option String).isNone &&
        (none : Option String).isNone) = true then 1 else 0) +
      (runClaimants stamps m
        (claimCheckAndClaim (stamps m)
          { data := none, claim := none }).1).2 = 1
  rw [claimCheckAndClaim]
  rw [if_pos (by simp), if_pos (by simp)]
  rw [runClaimants_claimed stamps m _ (by simp)]

/-- Witness for C3 at three concurrent claimants. -/
theorem C3_single_flight_witness :
    1 ≤ 3 ∧
    (runClaimants (fun _ => "1727000000000") 3
      { data := none, claim := none }).2 = 1 :=
  ⟨by omega, C3_single_flight (fun _ => "1727000000000") 3 (by omega)⟩

/-- Claim C5 (amended): in the consolidated V3 enqueue, every enqueue
preserves the invariant that no two tasks for the same location share
an id, and enqueueing the same id twice for the same location leaves
exactly one queued occurrence. -/
theorem C5_enqueue_dedup_v3 :
    (∀ (q : Queue) (m : List Nat) (L : Nat) (lt : String),
        QueueInv q → QueueInv (enqueueV3 q m L lt)) ∧
    (∀ (q : Queue) (i L : Nat) (lt : String),
        occCount q L (jsToLower lt) i ≤ 1 →
        occCount (enqueueV3 (enqueueV3 q [i] L lt) [i] L lt)
          L (jsToLower lt) i = 1) :=
  ⟨enqueueV3_preserves_inv, enqueueV3_double⟩

/-- Witness for C5 on the empty queue at a concrete id and station. -/
theorem C5_enqueue_dedup_v3_witness :
    QueueInv ([] : Queue) ∧
    occCount ([] : Queue) 60003760 (jsToLower "station") 7 ≤ 1 ∧
    QueueInv (enqueueV3 [] [7] 60003760 "station") ∧
    occCount (enqueueV3 (enqueueV3 [] [7] 60003760 "station")
        [7] 60003760 "station") 60003760 (jsToLower "station") 7 = 1 := by
  refine ⟨List.Pairwise.nil, by simp [occCount], ?_, ?_⟩
  · exact C5_enqueue_dedup_v3.1 [] [7] 60003760 "station" List.Pairwise.nil
  · exact C5_enqueue_dedup_v3.2 [] 7 60003760 "station" (by simp [occCount])

/-- Counterexample for C5 as frozen: in the part_001 variant of
`_queueMissingItems`, enqueueing id 2 twice for the same station from
an empty queue leaves two queued occurrences of the id — the second
enqueue finds no new ids, the `consolidated` flag stays false, and the
fall-through step 3 appends a duplicate task. -/
theorem C5_part001_double_enqueue_counterexample :
    enqueueP1 [] [2] 60003760 "station" =
      some [{ location_id := 60003760, location_type := "station", ids := [2] }] ∧
    enqueueP1 [{ location_id := 60003760, location_type := "station", ids := [2] }]
        [2] 60003760 "station" =
      some [{ location_id := 60003760, location_type := "station", ids := [2] },
            { location_id := 60003760, location_type := "station", ids := [2] }] ∧
    occCount [{ location_id := 60003760, location_type := "station", ids := [2] },
              { location_id := 60003760, location_type := "station", ids := [2] }]
      60003760 "station" 2 = 2 := by
  refine ⟨by decide, by decide, by decide⟩

/-- Claim C6 (amended): in the consolidated V3 variant, every task
produced by an enqueue or by the scheduler consolidation respects the
700-id batch cap, and no id is silently dropped: every enqueued id has
at least one queued occurrence afterwards, and consolidation preserves
exactly the set of (location, id) memberships while re-chunking. -/
theorem C6_chunking_v3 :
    (∀ (q : Queue) (m : List Nat) (L : Nat) (lt : String),
        (∀ t ∈ q, t.ids.length ≤ MAX_ID_PER_CHUNK) →
        ∀ t ∈ enqueueV3 q m L lt, t.ids.length ≤ MAX_ID_PER_CHUNK) ∧
    (∀ (q : Queue) (m : List Nat) (L : Nat) (lt : String) (i : Nat), i ∈ m →
        1 ≤ occCount (enqueueV3 q m L lt) L (jsToLower lt) i) ∧
    (∀ ts : List QTask, ∀ t ∈ consolidateTasks ts,
        t.ids.length ≤ MAX_ID_PER_CHUNK) ∧
    (∀ (ts : List QTask) (L : Nat) (lt : String) (i : Nat),
        (∃ t, t ∈ consolidateTasks ts ∧ keyMatch L lt t = true ∧ i ∈ t.ids) ↔
        (∃ t, t ∈ ts ∧ keyMatch L lt t = true ∧ i ∈ t.ids)) :=
  ⟨enqueueV3_cap, fun q m L lt i hi => enqueueV3_no_drop q m L lt i hi,
   consolidate_cap, consolidate_mem_iff⟩

/-- Witness for C6 on the empty queue at a concrete id and station. -/
theorem C6_chunking_v3_witness :
    (∀ t ∈ ([] : Queue), t.ids.length ≤ MAX_ID_PER_CHUNK) ∧
    (∀ t ∈ enqueueV3 [] [5] 60003760 "station",
        t.ids.length ≤ MAX_ID_PER_CHUNK) ∧
    (5 ∈ ([5] : List Nat)) ∧
    1 ≤ occCount (enqueueV3 [] [5] 60003760 "station")
        60003760 (jsToLower "station") 5 := by
  refine ⟨by simp, ?_, by simp, ?_⟩
  · exact C6_chunking_v3.1 [] [5] 60003760 "station" (by simp)
  · exact C6_chunking_v3.2.1 [] [5] 60003760 "station" 5 (by simp)

/-- Counterexample for C6 as frozen: the older enqueue variant
(src/src/FuzzApiPrice.V3.gs.js lines 836-874) pushes a single task
holding all 701 deduplicated ids without chunking, so the queue holds
a task whose id-set size exceeds the 700-id cap. -/
theorem jsSetDedup_go_of_disjoint {α : Type} [DecidableEq α] (l : List α) :
    ∀ seen : List α, l.Nodup → (∀ a ∈ l, a ∉ seen) →
      jsSetDedup.go l seen = l := by
  induction l with
  | nil => intro seen _ _; rfl
  | cons b t ih =>
      intro seen hn hd
      rw [jsSetDedup.go, if_neg (hd b (List.mem_cons_self _ _))]
      congr 1
      refine ih (b :: seen) (List.Nodup.of_cons hn) ?_
      intro a ha hmem
      rcases List.mem_cons.mp hmem with rfl | hmem
      · exact (List.nodup_cons.mp hn).1 ha
      · exact hd a (List.mem_cons_of_mem _ ha) hmem

theorem jsSetDedup_of_nodup {α : Type} [DecidableEq α] {l : List α}
    (h : l.Nodup) : jsSetDedup l = l :=
  jsSetDedup_go_of_disjoint l [] h (by simp)

set_option maxRecDepth 4000 in
theorem C6_old_enqueue_oversized_counterexample :
    (enqueueOld [] (List.range 701) 60003760 "station").map
      (fun t => t.ids.length) = [701] ∧
    ¬ (∀ t ∈ enqueueOld [] (List.range 701) 60003760 "station",
        t.ids.length ≤ MAX_ID_PER_CHUNK) := by
  have hded : jsSetDedup (List.range 701) = List.range 701 :=
    jsSetDedup_of_nodup (List.nodup_range _)
  have henq : enqueueOld [] (List.range 701) 60003760 "station" =
      [{ location_id := 60003760, location_type := jsToLower "station",
         ids := List.range 701 }] := by
    unfold enqueueOld
    rw [if_neg (by simp [List.isEmpty_iff])]
    show ([] : Queue) ++
        [(⟨60003760, jsToLower "station", jsSetDedup (List.range 701)⟩ : QTask)] = _
    rw [hded]
    rfl
  constructor
  · rw [henq]
    simp
  · rw [henq]
    intro hall
    have := hall (⟨60003760, jsToLower "station", List.range 701⟩ : QTask)
      (List.mem_singleton.mpr rfl)
    rw [List.length_range] at this
    have h701 : (701 : Nat) ≤ 700 := this
    omega

/-- Claim C7: on a successful transport response, every requested id is
classified — ids present as keys of the body are classified as records
(written positively) and ids absent from the body as confirmed absent
(written with the negative sentinel), with no requested id left
unclassified; this holds for the V3 `fuzzyFetchAll` write maps and for
the `fetchFuzzAggsInBatches_` per-slice classification (which never
maps a requested id to the undefined fetch-failed marker on success,
assuming the parsed JSON body holds no undefined values, which parsed
JSON cannot). -/
theorem C7_success_classifies_every_id :
    (∀ (task : QTask) (obj : List (String × JVal)) (id : Nat), id ∈ task.ids →
      ((toString id ∈ obj.map Prod.fst →
          toString id ∈ (fuzzyProcessTask task (FetchResp.http 200 (some obj))).1 ∧
          toString id ∉ (fuzzyProcessTask task (FetchResp.http 200 (some obj))).2) ∧
       (toString id ∉ obj.map Prod.fst →
          toString id ∈ (fuzzyProcessTask task (FetchResp.http 200 (some obj))).2 ∧
          toString id ∉ (fuzzyProcessTask task (FetchResp.http 200 (some obj))).1))) ∧
    (∀ (obj : List (String × JVal)) (slice : List Nat) (id : Nat),
      (∀ p ∈ obj, p.2 ≠ JVal.vundef) → id ∈ slice →
      ∃ v, (id, v) ∈ classifySlice true obj slice ∧ v ≠ JVal.vundef ∧
        ((obj.map Prod.fst).contains (toString id) = true →
            v = objGet obj (toString id)) ∧
        ((obj.map Prod.fst).contains (toString id) = false →
            v = JVal.vnull)) := by
  constructor
  · intro task obj id hid
    have hfp : fuzzyProcessTask task (FetchResp.http 200 (some obj)) =
        (jsSetDedup (obj.map Prod.fst),
         (task.ids.map toString).filter
           (fun s => !((jsSetDedup (obj.map Prod.fst)).contains s))) := rfl
    rw [hfp]
    constructor
    · intro hmem
      constructor
      · exact (mem_jsSetDedup _ _).mpr hmem
      · intro hneg
        have hp := (List.mem_filter.mp hneg).2
        rw [Bool.not_eq_eq_eq_not, Bool.not_true] at hp
        have : (jsSetDedup (obj.map Prod.fst)).elem (toString id) = true :=
          List.elem_iff.mpr ((mem_jsSetDedup _ _).mpr hmem)
        rw [show (jsSetDedup (obj.map Prod.fst)).contains (toString id) =
            (jsSetDedup (obj.map Prod.fst)).elem (toString id) from rfl] at hp
        rw [this] at hp
        cases hp
    · intro hmem
      have hnd : toString id ∉ jsSetDedup (obj.map Prod.fst) :=
        fun hmem2 => hmem ((mem_jsSetDedup _ _).mp hmem2)
      constructor
      · exact List.mem_filter.mpr ⟨List.mem_map.mpr ⟨id, hid, rfl⟩, by simp [hnd]⟩
      · intro hpos
        exact hmem ((mem_jsSetDedup _ _).mp hpos)
  · intro obj slice id hwf hid
    refine ⟨if (obj.map Prod.fst).contains (toString id) then
        objGet obj (toString id) else JVal.vnull, ?_, ?_, ?_, ?_⟩
    · show (id, _) ∈ slice.map (fun id =>
        (id, if (obj.map Prod.fst).contains (toString id)
             then objGet obj (toString id) else JVal.vnull))
      exact List.mem_map.mpr ⟨id, hid, rfl⟩
    · by_cases hc : (obj.map Prod.fst).contains (toString id) = true
      · rw [if_pos hc]
        have hk : toString id ∈ obj.map Prod.fst :=
          List.elem_iff.mp (by simpa [List.contains] using hc)
        obtain ⟨p, hp, hp1⟩ := List.mem_map.mp hk
        intro habs
        unfold objGet at habs
        rcases hfind : obj.find? (fun q => q.1 == toString id) with _ | p2
        · have := List.find?_eq_none.mp hfind p hp
          simp [hp1] at this
        · rw [hfind] at habs
          have hp2 := List.mem_of_find?_eq_some hfind
          exact hwf p2 hp2 habs
      · rw [if_neg hc]
        intro habs
        cases habs
    · intro hc
      rw [if_pos hc]
    · intro hc
      rw [if_neg (by intro h2; rw [hc] at h2; exact Bool.false_ne_true h2)]

/-- Witness for C7 at a task of two ids and a body holding one of
them: 34 is classified positively, 35 negatively, and the per-slice
classification records 34 with its row. -/
theorem C7_success_classifies_every_id_witness :
    ((34 : Nat) ∈ ([34, 35] : List Nat)) ∧
    ("34" ∈ ([("34", JVal.vobj [])] : List (String × JVal)).map Prod.fst) ∧
    "34" ∈ (fuzzyProcessTask
        { location_id := 60003760, location_type := "station", ids := [34, 35] }
        (FetchResp.http 200 (some [("34", JVal.vobj [])]))).1 ∧
    "35" ∈ (fuzzyProcessTask
        { location_id := 60003760, location_type := "station", ids := [34, 35] }
        (FetchResp.http 200 (some [("34", JVal.vobj [])]))).2 := by
  have h34 : toString (34 : Nat) = "34" := rfl
  have h35 : toString (35 : Nat) = "35" := rfl
  have hin34 : toString (34 : Nat) ∈
      ([("34", JVal.vobj [])] : List (String × JVal)).map Prod.fst := by
    rw [h34]; simp
  have hnin35 : toString (35 : Nat) ∉
      ([("34", JVal.vobj [])] : List (String × JVal)).map Prod.fst := by
    rw [h35]
    intro hmem
    simp at hmem
  refine ⟨by simp, by simp, ?_, ?_⟩
  · have := ((C7_success_classifies_every_id.1
      { location_id := 60003760, location_type := "station", ids := [34, 35] }
      [("34", JVal.vobj [])] 34 (by simp)).1 hin34).1
    rwa [h34] at this
  · have := ((C7_success_classifies_every_id.1
      { location_id := 60003760, location_type := "station", ids := [34, 35] }
      [("34", JVal.vobj [])] 35 (by simp)).2 hnin35).1
    rwa [h35] at this

/-- Claim C8: sanitization coerces every numeric field of each side
with `toNumOrNull` (absent or non-numeric values become null, and the
coerced value is exactly the coercion of the raw field, so an empty
string never becomes 0), substitutes `avg := weightedAverage` when avg
coerces to null, and returns the confirmed-absent result null exactly
when neither side retains a usable numeric field. -/
theorem C8_sanitize_spec :
    (∀ (fs : List (String × JVal)) (k : String), k ∈ FUZZ_FIELDS → k ≠ "avg" →
      ∀ o, normalizeSide (JVal.vobj fs) = some o →
        SideOut.get o k = toNumOrNull (objGet fs k)) ∧
    (∀ (fs : List (String × JVal)) (o : SideOut),
      normalizeSide (JVal.vobj fs) = some o →
        o.avg = (if toNumOrNull (objGet fs "avg") = none
                 then toNumOrNull (objGet fs "weightedAverage")
                 else toNumOrNull (objGet fs "avg"))) ∧
    (∀ fs : List (String × JVal),
      normalizeSide (JVal.vobj fs) = none ↔
        ∀ k ∈ FUZZ_FIELDS, toNumOrNull (objGet fs k) = none) ∧
    (∀ fs : List (String × JVal),
      sanitizeAgg_ (JVal.vobj fs) = none ↔
        normalizeSide (objGet fs "buy") = none ∧
        normalizeSide (objGet fs "sell") = none) ∧
    (∀ v : JVal, (∀ fs, v ≠ JVal.vobj fs) → sanitizeAgg_ v = none) := by
  refine ⟨?_, ?_, normalizeSide_none_iff, ?_, ?_⟩
  · intro fs k hk hka o ho
    have heq := normalizeSide_some_eq ho
    subst heq
    simp only [FUZZ_FIELDS, List.mem_cons, List.not_mem_nil, or_false] at hk
    rcases hk with rfl | rfl | rfl | rfl | rfl | rfl | rfl | rfl
    · exact substAvg_min (rawSide fs)
    · exact substAvg_max (rawSide fs)
    · exact absurd rfl hka
    · exact substAvg_median (rawSide fs)
    · exact substAvg_volume (rawSide fs)
    · exact substAvg_weightedAverage (rawSide fs)
    · exact substAvg_orderCount (rawSide fs)
    · exact substAvg_fivePercent (rawSide fs)
  · intro fs o ho
    have heq := normalizeSide_some_eq ho
    subst heq
    exact substAvg_avg (rawSide fs)
  · intro fs
    unfold sanitizeAgg_
    by_cases hc : normalizeSide (objGet fs "buy") = none ∧
        normalizeSide (objGet fs "sell") = none
    · simp [hc]
    · simp only [hc, if_false]
      simp [hc]
  · intro v h
    cases v with
    | vobj fs => exact absurd rfl (h fs)
    | vnull => rfl
    | vundef => rfl
    | vnum n => rfl
    | vstr s => rfl
    | vbool b => rfl

/-- Witness for C8 at a side whose avg is a non-numeric string and
whose weightedAverage is 7: the fallback fills avg with 7 and the
untouched volume field reads back as its own coercion. -/
theorem C8_sanitize_spec_witness :
    ("volume" ∈ FUZZ_FIELDS) ∧ ("volume" ≠ "avg") ∧
    normalizeSide (JVal.vobj [("avg", JVal.vstr "x"),
        ("weightedAverage", JVal.vnum (JNum.fin 7))]) =
      some { min := none, max := none, avg := some 7, median := none,
             volume := none, weightedAverage := some 7, orderCount := none,
             fivePercent := none } ∧
    SideOut.get { min := none, max := none, avg := some 7, median := none,
                  volume := none, weightedAverage := some 7, orderCount := none,
                  fivePercent := none } "volume" =
      toNumOrNull (objGet [("avg", JVal.vstr "x"),
        ("weightedAverage", JVal.vnum (JNum.fin 7))] "volume") ∧
    SideOut.avg { min := none, max := none, avg := some 7, median := none,
                  volume := none, weightedAverage := some 7, orderCount := none,
                  fivePercent := none } = some 7 := by
  refine ⟨by simp [FUZZ_FIELDS], by decide, rfl, ?_, ?_⟩
  · exact C8_sanitize_spec.1 [("avg", JVal.vstr "x"),
      ("weightedAverage", JVal.vnum (JNum.fin 7))] "volume"
      (by simp [FUZZ_FIELDS]) (by decide) _ rfl
  · have := C8_sanitize_spec.2.1 [("avg", JVal.vstr "x"),
      ("weightedAverage", JVal.vnum (JNum.fin 7))]
      { min := none, max := none, avg := some 7, median := none,
        volume := none, weightedAverage := some 7, orderCount := none,
        fivePercent := none } rfl
    exact this.trans rfl

end MarketFarm
